import Mathlib

/-!
Shallow embedding of src/rancher/resource_rancher_host.go, the host resource
of the terraform-provider-rancher plugin, together with proofs about its
label-merge policy, CRUD error handling, schema, and polling loops.

Remote calls are modelled by oracles: each embedded operation receives the
results the remote client would return for the calls it makes, in call order.
Go map values of type interface-brace are modelled as Option String, where
none stands for the Go nil interface value.  A Go nil-pointer dereference is
modelled as a distinguished error value (HostError.nilDereference) or, inside
a refresh closure, as the absent Observation (none).
-/

namespace RancherHost

/-- A label value: Go interface values in a label map, none models Go nil. -/
abbrev LabelVal := Option String

/-- A Go map of labels, modelled as an association list with string keys. -/
abbrev Labels := List (String × LabelVal)

/-- First-match lookup in a label map: some v when the key is present. -/
def mapLookup : Labels → String → Option LabelVal
  | [], _ => none
  | (k, v) :: rest, key => if key = k then some v else mapLookup rest key

/-- Go map indexing m[k]: the zero value (nil, here none) when absent. -/
def mapIndex (m : Labels) (k : String) : LabelVal :=
  (mapLookup m k).join

/-- Go delete(m, k): removes the key from the map if present. -/
def mapDelete : Labels → String → Labels
  | [], _ => []
  | (k0, v0) :: rest, k =>
    if k0 = k then mapDelete rest k else (k0, v0) :: mapDelete rest k

/-- Go map assignment m[k] = v: overwrite in place, or append when absent. -/
def mapSet : Labels → String → LabelVal → Labels
  | [], k, v => [(k, v)]
  | (k0, v0) :: rest, k, v =>
    if k0 = k then (k0, v) :: rest else (k0, v0) :: mapSet rest k v

/-- The read-only label keys reserved for Rancher (roLabels in the source). -/
def roLabels : List String :=
  [ "io.rancher.host.agent_image"
  , "io.rancher.host.docker_version"
  , "io.rancher.host.kvm"
  , "io.rancher.host.linux_kernel_version" ]

/-- A remote host record (the fields of rancher.Host this file uses). -/
structure Host where
  id : String
  name : String
  description : String
  hostname : String
  state : String
  labels : Labels
deriving DecidableEq, Repr

/-- The local resource state (the schema fields of the host resource). -/
structure ResourceData where
  id : String
  name : String
  description : String
  environment_id : String
  hostname : String
  labels : Labels
deriving DecidableEq, Repr

/-- Result of one call to client.Host.ById: a possibly nil record and a
possibly nil error, as in Go. -/
abbrev ByIdResult := Option Host × Option String

/-- Errors an operation can return.  remote carries a client error returned
as-is; the other string-carrying constructors are the fmt.Errorf wrappings of
the source; nilDereference embeds a Go nil-pointer dereference. -/
inductive HostError where
  | remote (msg : String)
  | waitFound (hostname : String) (inner : String)
  | deactivating (inner : String)
  | waitRemoved (id : String) (inner : String)
  | deleting (inner : String)
  | nilDereference
deriving DecidableEq, Repr

/-- Renders an error the way the source formats it with fmt.Errorf. -/
def HostError.message : HostError → String
  | .remote msg => msg
  | .waitFound hostname inner =>
      "Error waiting for host (" ++ hostname ++ ") to be found: " ++ inner
  | .deactivating inner => "Error deactivating Host: " ++ inner
  | .waitRemoved id inner =>
      "Error waiting for host (" ++ id ++ ") to be removed: " ++ inner
  | .deleting inner => "Error deleting Host: " ++ inner
  | .nilDereference => "runtime error: invalid memory address or nil pointer dereference"

/-- Modelled from the spec: the helper removed(state) is defined outside the
file under analysis; per the spec a record whose state is removed is treated
as gone, so the predicate holds exactly on the removed state. -/
def removed (state : String) : Bool :=
  state == "removed"

/-- resourceRancherHostRead from the source.  envErr is the error of the
Config.EnvironmentClient call, byId the result of client.Host.ById.  Returns
the updated local state and the error, mirroring lines 104-142. -/
def resourceRancherHostRead (d : ResourceData) (envErr : Option String)
    (byId : ByIdResult) : ResourceData × Option HostError :=
  match envErr with
  | some e => (d, some (.remote e))
  | none =>
    match byId with
    | (_, some e) => (d, some (.remote e))
    | (none, none) => ({ d with id := "" }, none)
    | (some host, none) =>
      if removed host.state then
        ({ d with id := "" }, none)
      else
        let labels := roLabels.foldl mapDelete host.labels
        ({ d with description := host.description
                , name := host.name
                , hostname := host.hostname
                , labels := labels }, none)

/-- One result of a resource.StateRefreshFunc invocation: the returned object
(nil or a host), the status string, and the error. -/
structure Observation where
  result : Option Host
  state : String
  err : Option String
deriving DecidableEq, Repr

/-- A resource.StateChangeConf as built in the source.  Durations are in
seconds. -/
structure StateChangeConf where
  pending : List String
  target : List String
  timeout : Nat
  delay : Nat
  minTimeout : Nat
  notFoundChecks : Nat
deriving DecidableEq, Repr

/-- How a polling loop can fail. -/
inductive WaitError where
  /-- the hard timeout elapsed before a target status was observed -/
  | timeout
  /-- more consecutive nil results than NotFoundChecks allows -/
  | notFoundLimit
  /-- a status neither pending nor target was observed -/
  | unexpectedState (s : String)
  /-- the refresh function returned an error -/
  | refresh (msg : String)
  /-- the refresh function dereferenced a nil pointer -/
  | panic
deriving DecidableEq, Repr

/-- Renders a WaitError for embedding in a wrapped message. -/
def WaitError.message : WaitError → String
  | .timeout => "timeout while waiting for state to become target"
  | .notFoundLimit => "couldn't find resource"
  | .unexpectedState s => "unexpected state " ++ s
  | .refresh msg => msg
  | .panic => "runtime error: invalid memory address or nil pointer dereference"

/-- Modelled from the spec: the plugin SDK loop StateChangeConf.WaitForState,
an external contract the spec describes as a caller-driven poll with a hard
timeout and bounded not-found retries.  The loop consumes the successive
refresh results; exhausting them stands for the hard timeout elapsing.  A
refresh error fails the loop; a nil result increments the consecutive
not-found counter and fails once it exceeds notFoundChecks; a non-nil result
resets that counter, succeeds on a target status, continues on a pending
status and fails on any other status.  The outer none embeds a refresh
invocation that panicked. -/
def waitForState (conf : StateChangeConf) :
    List (Option Observation) → Nat → Except WaitError Host
  | [], _ => .error .timeout
  | none :: _, _ => .error .panic
  | some o :: rest, nf =>
    match o.err with
    | some e => .error (.refresh e)
    | none =>
      match o.result with
      | none =>
        if conf.notFoundChecks < nf + 1 then .error .notFoundLimit
        else waitForState conf rest (nf + 1)
      | some h =>
        if conf.target.contains o.state then .ok h
        else if conf.pending.contains o.state then waitForState conf rest 0
        else .error (.unexpectedState o.state)

/-- findHost from the source: one invocation of the refresh closure, given
what client.Host.List returned (a possibly nil collection and an error the
source discards).  Returns none when the closure panics by ranging over a nil
collection; otherwise the first host in the list with the wanted hostname, or
the pending pseudo-status not found. -/
def findHost (hostname : String) (hosts : Option (List Host))
    (_listErr : Option String) : Option Observation :=
  match hosts with
  | none => none
  | some hs =>
    match hs.find? (fun h => h.hostname == hostname) with
    | some h => some ⟨some h, h.state, none⟩
    | none => some ⟨none, "not found", none⟩

/-- HostStateRefreshFunc from the source: one invocation of the refresh
closure, given what client.Host.ById returned.  An error is passed through
with a nil result; otherwise host.State is read, a nil dereference (none)
when the record is nil. -/
def HostStateRefreshFunc (byId : ByIdResult) : Option Observation :=
  match byId with
  | (_, some e) => some ⟨none, "", some e⟩
  | (some h, none) => some ⟨some h, h.state, none⟩
  | (none, none) => none

/-- The StateChangeConf of resourceRancherHostCreate (source lines 67-75). -/
def hostStateConf : StateChangeConf :=
  { pending := ["active", "removed", "removing", "not found", "registering", "activating"]
  , target := ["active", "disconnected"]
  , timeout := 10 * 60
  , delay := 1
  , minTimeout := 3
  , notFoundChecks := 50 }

/-- The StateChangeConf of the deactivation wait in delete (lines 198-205). -/
def deactivateStateConf : StateChangeConf :=
  { pending := ["active", "inactive", "deactivating"]
  , target := ["inactive"]
  , timeout := 10 * 60
  , delay := 1
  , minTimeout := 3
  , notFoundChecks := 0 }

/-- The StateChangeConf of the removal wait in delete (lines 220-227). -/
def removeStateConf : StateChangeConf :=
  { pending := ["inactive", "removed", "removing"]
  , target := ["removed"]
  , timeout := 10 * 60
  , delay := 1
  , minTimeout := 3
  , notFoundChecks := 0 }

/-- The data map sent to client.Update in resourceRancherHostUpdate. -/
structure UpdateData where
  name : String
  description : String
  labels : Labels
deriving DecidableEq, Repr

/-- The remote results resourceRancherHostUpdate consumes, in call order. -/
structure UpdateOracle where
  envErr : Option String
  byId : ByIdResult
  updateErr : Option String
  readEnvErr : Option String
  readById : ByIdResult
deriving Repr

/-- The merge of lines 154-162: each read-only key is assigned the value the
current remote record indexes for it, over the user-supplied map. -/
def mergeROLabels (user : Labels) (remote : Labels) : Labels :=
  roLabels.foldl (fun acc lbl => mapSet acc lbl (mapIndex remote lbl)) user

/-- resourceRancherHostUpdate from the source (lines 144-176).  Returns the
updated local state, the error, and the data map sent to client.Update (none
when that call was never reached).  A nil record from ById is dereferenced at
host.Labels, hence nilDereference. -/
def resourceRancherHostUpdate (d : ResourceData) (o : UpdateOracle) :
    ResourceData × Option HostError × Option UpdateData :=
  match o.envErr with
  | some e => (d, some (.remote e), none)
  | none =>
    match o.byId with
    | (_, some e) => (d, some (.remote e), none)
    | (none, none) => (d, some .nilDereference, none)
    | (some host, none) =>
      let labels := mergeROLabels d.labels host.labels
      let data : UpdateData := ⟨d.name, d.description, labels⟩
      match o.updateErr with
      | some e => (d, some (.remote e), some data)
      | none =>
        let r := resourceRancherHostRead d o.readEnvErr o.readById
        (r.1, r.2, some data)

/-- The remote results resourceRancherHostCreate consumes: the environment
client error, the successive Host.List results of the find poll, and the
oracle of the update it chains into. -/
structure CreateOracle where
  envErr : Option String
  lists : List (Option (List Host) × Option String)
  upd : UpdateOracle
deriving Repr

/-- resourceRancherHostCreate from the source (lines 58-85): poll findHost
under hostStateConf, wrap a wait failure naming the hostname, set the id to
the found record and chain into update. -/
def resourceRancherHostCreate (d : ResourceData) (o : CreateOracle) :
    ResourceData × Option HostError × Option UpdateData :=
  match o.envErr with
  | some e => (d, some (.remote e), none)
  | none =>
    let hostname := d.hostname
    let obs := o.lists.map (fun lr => findHost hostname lr.1 lr.2)
    match waitForState hostStateConf obs 0 with
    | .error we => (d, some (.waitFound hostname we.message), none)
    | .ok host =>
      resourceRancherHostUpdate { d with id := host.id } o.upd

/-- The remote calls delete issues besides fetches and polls. -/
inductive RemoteCall where
  | actionDeactivate (id : String)
  | deleteHost (id : String)
deriving DecidableEq, Repr

/-- The remote results resourceRancherHostDelete consumes, in call order: the
environment client error, the ById fetch, the deactivate action error, the
ById results of the deactivation poll, the delete call error, and the ById
results of the removal poll. -/
structure DeleteOracle where
  envErr : Option String
  byId : ByIdResult
  deactErr : Option String
  deactByIds : List ByIdResult
  delErr : Option String
  removeByIds : List ByIdResult
deriving Repr

/-- The tail of delete from the Host.Delete call on (lines 214-236): issue
the delete, wait for the removed state, clear the stored id. -/
def deleteRest (d : ResourceData) (id : String) (o : DeleteOracle) :
    ResourceData × Option HostError × List RemoteCall :=
  match o.delErr with
  | some e => (d, some (.deleting e), [.deleteHost id])
  | none =>
    match waitForState removeStateConf (o.removeByIds.map HostStateRefreshFunc) 0 with
    | .error we => (d, some (.waitRemoved id we.message), [.deleteHost id])
    | .ok _ => ({ d with id := "" }, none, [.deleteHost id])

/-- resourceRancherHostDelete from the source (lines 178-237).  A nil record
from ById is dereferenced at host.State, hence nilDereference.  A host not
already inactive is first deactivated and polled to inactive; both wait
failures are wrapped with the removed-wait message as in the source. -/
def resourceRancherHostDelete (d : ResourceData) (o : DeleteOracle) :
    ResourceData × Option HostError × List RemoteCall :=
  let id := d.id
  match o.envErr with
  | some e => (d, some (.remote e), [])
  | none =>
    match o.byId with
    | (_, some e) => (d, some (.remote e), [])
    | (none, none) => (d, some .nilDereference, [])
    | (some host, none) =>
      if host.state != "inactive" then
        match o.deactErr with
        | some e => (d, some (.deactivating e), [.actionDeactivate id])
        | none =>
          match waitForState deactivateStateConf (o.deactByIds.map HostStateRefreshFunc) 0 with
          | .error we => (d, some (.waitRemoved id we.message), [.actionDeactivate id])
          | .ok _ =>
            let r := deleteRest d id o
            (r.1, r.2.1, .actionDeactivate id :: r.2.2)
      else
        deleteRest d id o

/-- The type of a schema entry (the two types this resource uses). -/
inductive SchemaType where
  | string
  | map
deriving DecidableEq, Repr

/-- One schema entry, with its flags. -/
structure SchemaField where
  type : SchemaType
  required : Bool
  optional : Bool
  computed : Bool
deriving DecidableEq, Repr

/-- The Schema map of resourceRancherHost (source lines 29-54), as an
association list from field name to entry. -/
def hostSchema : List (String × SchemaField) :=
  [ ("id", ⟨.string, false, false, true⟩)
  , ("name", ⟨.string, true, false, false⟩)
  , ("description", ⟨.string, false, true, false⟩)
  , ("environment_id", ⟨.string, true, false, false⟩)
  , ("hostname", ⟨.string, true, false, false⟩)
  , ("labels", ⟨.map, false, true, false⟩) ]

/-! Lemmas about the label-map operations. -/

/-- Lookup after a delete: the deleted key is gone, others are unchanged. -/
theorem mapLookup_mapDelete (m : Labels) (kd k : String) :
    mapLookup (mapDelete m kd) k = if k = kd then none else mapLookup m k := by
  induction m with
  | nil => simp [mapDelete, mapLookup]
  | cons p rest ih =>
    obtain ⟨k0, v0⟩ := p
    by_cases h0 : k0 = kd
    · subst h0
      rw [mapDelete, if_pos rfl, ih]
      by_cases hk : k = k0
      · simp [hk]
      · simp [mapLookup, hk]
    · rw [mapDelete, if_neg h0]
      simp only [mapLookup]
      by_cases hk : k = k0
      · subst hk
        simp [h0]
      · simp [hk, ih]

/-- Lookup after folding deletes over a key list. -/
theorem mapLookup_foldl_mapDelete (ks : List String) :
    ∀ (m : Labels) (k : String),
    mapLookup (ks.foldl mapDelete m) k = if k ∈ ks then none else mapLookup m k := by
  induction ks with
  | nil => intro m k; simp
  | cons k0 rest ih =>
    intro m k
    rw [List.foldl_cons, ih]
    by_cases hk : k ∈ rest
    · simp [hk]
    · rw [if_neg hk, mapLookup_mapDelete]
      by_cases he : k = k0
      · simp [he]
      · simp [he, hk]

/-- Lookup of the key just assigned. -/
theorem mapLookup_mapSet_self (m : Labels) (k : String) (v : LabelVal) :
    mapLookup (mapSet m k v) k = some v := by
  induction m with
  | nil => simp [mapSet, mapLookup]
  | cons p rest ih =>
    obtain ⟨k0, v0⟩ := p
    by_cases h : k0 = k
    · subst h
      simp [mapSet, mapLookup]
    · rw [mapSet, if_neg h, mapLookup, if_neg (fun hh => h hh.symm)]
      exact ih

/-- Lookup of a key other than the one assigned. -/
theorem mapLookup_mapSet_ne (m : Labels) (k0 k : String) (v : LabelVal)
    (h : k ≠ k0) : mapLookup (mapSet m k0 v) k = mapLookup m k := by
  induction m with
  | nil => simp [mapSet, mapLookup, h]
  | cons p rest ih =>
    obtain ⟨k1, v1⟩ := p
    by_cases h1 : k1 = k0
    · subst h1
      rw [mapSet, if_pos rfl, mapLookup, mapLookup,
          if_neg (fun hh => h (hh.trans rfl)), if_neg (fun hh => h (hh.trans rfl))]
    · rw [mapSet, if_neg h1, mapLookup, mapLookup]
      by_cases hk : k = k1
      · simp [hk]
      · simp [hk, ih]

/-- Folding assignments over keys not containing k leaves its lookup alone. -/
theorem mapLookup_foldl_set_notMem (r : Labels) (ks : List String) :
    ∀ (m : Labels) (k : String), k ∉ ks →
    mapLookup (ks.foldl (fun acc lbl => mapSet acc lbl (mapIndex r lbl)) m) k =
      mapLookup m k := by
  induction ks with
  | nil => intro m k _; rfl
  | cons k0 rest ih =>
    intro m k hk
    have hne : k ≠ k0 := fun he => hk (by rw [he]; exact List.mem_cons_self _ _)
    rw [List.foldl_cons, ih _ _ (fun hm => hk (List.mem_cons_of_mem _ hm)),
        mapLookup_mapSet_ne _ _ _ _ hne]

/-- Folding assignments over keys containing k binds k to the indexed value. -/
theorem mapLookup_foldl_set_mem (r : Labels) (ks : List String) :
    ∀ (m : Labels) (k : String), k ∈ ks →
    mapLookup (ks.foldl (fun acc lbl => mapSet acc lbl (mapIndex r lbl)) m) k =
      some (mapIndex r k) := by
  induction ks with
  | nil => intro m k hk; cases hk
  | cons k0 rest ih =>
    intro m k hk
    rw [List.foldl_cons]
    by_cases hr : k ∈ rest
    · exact ih _ _ hr
    · have hk0 : k = k0 := by
        rcases List.mem_cons.mp hk with h | h
        · exact h
        · exact absurd h hr
      subst hk0
      rw [mapLookup_foldl_set_notMem r rest _ _ hr, mapLookup_mapSet_self]

/-! Lemmas unfolding one step of the polling loop. -/

/-- One loop step on a found record with no error. -/
theorem waitForState_cons_found (conf : StateChangeConf) (h : Host) (s : String)
    (rest : List (Option Observation)) (nf : Nat) :
    waitForState conf (some ⟨some h, s, none⟩ :: rest) nf =
      if conf.target.contains s then .ok h
      else if conf.pending.contains s then waitForState conf rest 0
      else .error (.unexpectedState s) := rfl

/-- One loop step on a nil result with no error. -/
theorem waitForState_cons_notFound (conf : StateChangeConf) (s : String)
    (rest : List (Option Observation)) (nf : Nat) :
    waitForState conf (some ⟨none, s, none⟩ :: rest) nf =
      if conf.notFoundChecks < nf + 1 then .error .notFoundLimit
      else waitForState conf rest (nf + 1) := rfl

/-- A run of n consecutive nil results either exhausts the allowance or
continues with the counter advanced by n. -/
theorem waitForState_notFounds (conf : StateChangeConf) (s : String)
    (rest : List (Option Observation)) (n : Nat) :
    ∀ (nf : Nat), nf ≤ conf.notFoundChecks →
    waitForState conf (List.replicate n (some ⟨none, s, none⟩) ++ rest) nf =
      if conf.notFoundChecks < nf + n then Except.error .notFoundLimit
      else waitForState conf rest (nf + n) := by
  induction n with
  | zero =>
    intro nf hle
    rw [List.replicate_zero, List.nil_append, if_neg (by omega), Nat.add_zero]
  | succ m ih =>
    intro nf hle
    rw [List.replicate_succ, List.cons_append, waitForState_cons_notFound]
    by_cases hc : conf.notFoundChecks < nf + 1
    · rw [if_pos hc, if_pos (by omega)]
    · rw [if_neg hc, ih (nf + 1) (by omega)]
      by_cases hc2 : conf.notFoundChecks < nf + 1 + m
      · rw [if_pos hc2, if_pos (by omega)]
      · rw [if_neg hc2, if_neg (by omega)]
        exact congrArg (waitForState conf rest) (by omega)

/-- A successful poll found an observation whose status is in the target set
and whose record is the host returned. -/
theorem waitForState_ok_target (conf : StateChangeConf) :
    ∀ (l : List (Option Observation)) (nf : Nat) (h : Host),
    waitForState conf l nf = .ok h →
    ∃ s, conf.target.contains s = true ∧ some (Observation.mk (some h) s none) ∈ l := by
  intro l
  induction l with
  | nil => intro nf h hw; simp [waitForState] at hw
  | cons ob rest ih =>
    intro nf h hw
    match ob with
    | none => simp [waitForState] at hw
    | some ⟨res, s, some e⟩ => simp [waitForState] at hw
    | some ⟨none, s, none⟩ =>
      rw [waitForState_cons_notFound] at hw
      split at hw
      · exact absurd hw (by simp)
      · obtain ⟨s1, hs1, hmem⟩ := ih _ _ hw
        exact ⟨s1, hs1, List.mem_cons_of_mem _ hmem⟩
    | some ⟨some h0, s, none⟩ =>
      rw [waitForState_cons_found] at hw
      split at hw
      next htgt =>
        cases hw
        exact ⟨s, htgt, List.mem_cons_self _ _⟩
      next htgt =>
        split at hw
        · obtain ⟨s1, hs1, hmem⟩ := ih _ _ hw
          exact ⟨s1, hs1, List.mem_cons_of_mem _ hmem⟩
        · exact absurd hw (by simp)

/-- A poll whose every observation is a found record in a pending but not
target status never terminates early: the timeout elapses. -/
theorem waitForState_pending_timeout (conf : StateChangeConf) :
    ∀ (l : List (Option Observation)) (nf : Nat),
    (∀ ob ∈ l, ∃ h s, ob = some (Observation.mk (some h) s none) ∧
        conf.target.contains s = false ∧ conf.pending.contains s = true) →
    waitForState conf l nf = .error .timeout := by
  intro l
  induction l with
  | nil => intro nf _; rfl
  | cons ob rest ih =>
    intro nf hall
    obtain ⟨h, s, rfl, htgt, hpend⟩ := hall ob (List.mem_cons_self _ _)
    rw [waitForState_cons_found, if_neg (by simpa using htgt), if_pos hpend]
    exact ih 0 (fun o ho => hall o (List.mem_cons_of_mem _ ho))

/-! Helper lemmas about the delete tail. -/

/-- A successful delete tail issued the delete call with no error, saw the
removal poll succeed, cleared the id and issued exactly the delete call. -/
theorem deleteRest_success (d : ResourceData) (hid : String) (o : DeleteOracle)
    (hsucc : (deleteRest d hid o).2.1 = none) :
    o.delErr = none
    ∧ (∃ h2, waitForState removeStateConf (o.removeByIds.map HostStateRefreshFunc) 0 = .ok h2)
    ∧ (deleteRest d hid o).1 = { d with id := "" }
    ∧ (deleteRest d hid o).2.2 = [.deleteHost hid] := by
  cases hde : o.delErr with
  | some e => simp [deleteRest, hde] at hsucc
  | none =>
    cases hw : waitForState removeStateConf (o.removeByIds.map HostStateRefreshFunc) 0 with
    | error we => simp [deleteRest, hde, hw] at hsucc
    | ok h2 =>
      exact ⟨rfl, ⟨h2, hw ▸ rfl⟩, by simp [deleteRest, hde, hw], by simp [deleteRest, hde, hw]⟩

/-- A failing delete tail leaves the local state untouched. -/
theorem deleteRest_error (d : ResourceData) (hid : String) (o : DeleteOracle)
    (e : HostError) (herr : (deleteRest d hid o).2.1 = some e) :
    (deleteRest d hid o).1 = d := by
  cases hde : o.delErr with
  | some e0 => simp [deleteRest, hde]
  | none =>
    cases hw : waitForState removeStateConf (o.removeByIds.map HostStateRefreshFunc) 0 with
    | error we => simp [deleteRest, hde, hw]
    | ok h2 => simp [deleteRest, hde, hw] at herr

/-- Associativity of string append, via the underlying character data. -/
theorem string_append_assoc (a b c : String) : a ++ b ++ c = a ++ (b ++ c) := by
  apply String.ext
  simp [String.data_append, List.append_assoc]

/-! Claim theorems. -/

/-- C1: for every host record returned by the client during a read of an
existing, non-removed host, the labels map surfaced to the caller equals the
remote label map with the four reserved keys removed: every reserved key is
absent from the surfaced map and every other key keeps its remote binding. -/
theorem claim_C1 (d : ResourceData) (host : Host) (k : String)
    (hrem : removed host.state = false) :
    (k ∈ roLabels →
      mapLookup ((resourceRancherHostRead d none (some host, none)).1).labels k = none)
    ∧ (k ∉ roLabels →
      mapLookup ((resourceRancherHostRead d none (some host, none)).1).labels k =
        mapLookup host.labels k) := by
  have hread : (resourceRancherHostRead d none (some host, none)).1.labels =
      roLabels.foldl mapDelete host.labels := by
    simp [resourceRancherHostRead, hrem]
  constructor
  · intro hk
    rw [hread, mapLookup_foldl_mapDelete, if_pos hk]
  · intro hk
    rw [hread, mapLookup_foldl_mapDelete, if_neg hk]

/-- Witness for C1 at a host carrying one reserved and one user label. -/
theorem claim_C1_witness :
    (mapLookup ((resourceRancherHostRead
        ⟨"1", "n", "d", "e", "h", []⟩ none
        (some ⟨"1", "n", "d", "h", "active",
          [("io.rancher.host.kvm", some "true"), ("size", some "big")]⟩, none)).1).labels
      "io.rancher.host.kvm" = none)
    ∧ (mapLookup ((resourceRancherHostRead
        ⟨"1", "n", "d", "e", "h", []⟩ none
        (some ⟨"1", "n", "d", "h", "active",
          [("io.rancher.host.kvm", some "true"), ("size", some "big")]⟩, none)).1).labels
      "size" = mapLookup [("io.rancher.host.kvm", some "true"), ("size", some "big")] "size") :=
  by
  constructor
  · exact (claim_C1 ⟨"1", "n", "d", "e", "h", []⟩
      ⟨"1", "n", "d", "h", "active",
        [("io.rancher.host.kvm", some "true"), ("size", some "big")]⟩
      "io.rancher.host.kvm" (by decide)).1 (by decide)
  · exact (claim_C1 ⟨"1", "n", "d", "e", "h", []⟩
      ⟨"1", "n", "d", "h", "active",
        [("io.rancher.host.kvm", some "true"), ("size", some "big")]⟩
      "size" (by decide)).2 (by decide)

/-- C2: on every update that reaches the remote update call, the label map
sent binds each reserved key to the value the current remote record indexes
for that key, overwriting any user-supplied binding. -/
theorem claim_C2 (d : ResourceData) (o : UpdateOracle) (host : Host) (lbl : String)
    (henv : o.envErr = none) (hby : o.byId = (some host, none))
    (hlbl : lbl ∈ roLabels) :
    ∃ sent, (resourceRancherHostUpdate d o).2.2 = some sent ∧
      mapLookup sent.labels lbl = some (mapIndex host.labels lbl) := by
  refine ⟨⟨d.name, d.description, mergeROLabels d.labels host.labels⟩, ?_, ?_⟩
  · cases hu : o.updateErr <;>
      simp [resourceRancherHostUpdate, henv, hby, hu, mergeROLabels]
  · simp only [mergeROLabels]
    exact mapLookup_foldl_set_mem _ _ _ _ hlbl

/-- Witness for C2: the user binding of a reserved key is replaced by the
remote one. -/
theorem claim_C2_witness :
    ∃ sent, (resourceRancherHostUpdate
        ⟨"1", "n", "d", "e", "h", [("io.rancher.host.kvm", some "user")]⟩
        ⟨none, (some ⟨"1", "n", "d", "h", "active",
          [("io.rancher.host.kvm", some "remote")]⟩, none), none, none,
          (none, none)⟩).2.2 = some sent ∧
      mapLookup sent.labels "io.rancher.host.kvm" =
        some (mapIndex [("io.rancher.host.kvm", some "remote")] "io.rancher.host.kvm") :=
  claim_C2 ⟨"1", "n", "d", "e", "h", [("io.rancher.host.kvm", some "user")]⟩
    ⟨none, (some ⟨"1", "n", "d", "h", "active",
      [("io.rancher.host.kvm", some "remote")]⟩, none), none, none, (none, none)⟩
    ⟨"1", "n", "d", "h", "active", [("io.rancher.host.kvm", some "remote")]⟩
    "io.rancher.host.kvm" rfl rfl (by decide)

/-- C9: the configuration schema consists of exactly the fields id, name,
description, environment_id, hostname and labels; id is computed, hostname is
required, labels is a map. -/
theorem claim_C9 :
    hostSchema.map Prod.fst =
      ["id", "name", "description", "environment_id", "hostname", "labels"]
    ∧ (hostSchema.lookup "id").map SchemaField.computed = some true
    ∧ (hostSchema.lookup "hostname").map SchemaField.required = some true
    ∧ (hostSchema.lookup "labels").map SchemaField.type = some SchemaType.map :=
  ⟨rfl, rfl, rfl, rfl⟩

/-- C10: a read of an existing, non-removed host writes description, name,
hostname and labels from the remote record and leaves the stored id and
environment_id unchanged. -/
theorem claim_C10 (d : ResourceData) (host : Host)
    (hrem : removed host.state = false) :
    (resourceRancherHostRead d none (some host, none)).1.id = d.id
    ∧ (resourceRancherHostRead d none (some host, none)).1.environment_id =
        d.environment_id
    ∧ (resourceRancherHostRead d none (some host, none)).1.description =
        host.description
    ∧ (resourceRancherHostRead d none (some host, none)).1.name = host.name
    ∧ (resourceRancherHostRead d none (some host, none)).1.hostname = host.hostname
    ∧ (resourceRancherHostRead d none (some host, none)).1.labels =
        roLabels.foldl mapDelete host.labels := by
  simp [resourceRancherHostRead, hrem]

/-- Witness for C10 at a concrete active host. -/
theorem claim_C10_witness :
    (resourceRancherHostRead ⟨"1", "n", "d", "e", "h", []⟩ none
      (some ⟨"9", "rn", "rd", "rh", "active", []⟩, none)).1.id = "1"
    ∧ (resourceRancherHostRead ⟨"1", "n", "d", "e", "h", []⟩ none
      (some ⟨"9", "rn", "rd", "rh", "active", []⟩, none)).1.environment_id = "e"
    ∧ (resourceRancherHostRead ⟨"1", "n", "d", "e", "h", []⟩ none
      (some ⟨"9", "rn", "rd", "rh", "active", []⟩, none)).1.description = "rd"
    ∧ (resourceRancherHostRead ⟨"1", "n", "d", "e", "h", []⟩ none
      (some ⟨"9", "rn", "rd", "rh", "active", []⟩, none)).1.name = "rn"
    ∧ (resourceRancherHostRead ⟨"1", "n", "d", "e", "h", []⟩ none
      (some ⟨"9", "rn", "rd", "rh", "active", []⟩, none)).1.hostname = "rh"
    ∧ (resourceRancherHostRead ⟨"1", "n", "d", "e", "h", []⟩ none
      (some ⟨"9", "rn", "rd", "rh", "active", []⟩, none)).1.labels =
        roLabels.foldl mapDelete [] :=
  claim_C10 ⟨"1", "n", "d", "e", "h", []⟩ ⟨"9", "rn", "rd", "rh", "active", []⟩
    (by decide)

/-- C8: update and delete dereference the record fetched by id without a nil
check, and the refresh closure dereferences host.State: a nil record with a
nil error reaches the embedded nil dereference instead of a not-found result
(the stored id is not cleared), while whenever the fetch returns a record or
an error all three are fault-free. -/
theorem claim_C8 (d : ResourceData) (ou : UpdateOracle) (od : DeleteOracle)
    (h : Host) (e : String) (r : Option Host)
    (hu1 : ou.envErr = none) (hu2 : ou.byId = (none, none))
    (hd1 : od.envErr = none) (hd2 : od.byId = (none, none)) :
    (resourceRancherHostUpdate d ou).2.1 = some .nilDereference
    ∧ (resourceRancherHostUpdate d ou).1 = d
    ∧ (resourceRancherHostDelete d od).2.1 = some .nilDereference
    ∧ (resourceRancherHostDelete d od).1 = d
    ∧ HostStateRefreshFunc (none, none) = none
    ∧ HostStateRefreshFunc (some h, none) = some ⟨some h, h.state, none⟩
    ∧ HostStateRefreshFunc (r, some e) = some ⟨none, "", some e⟩ := by
  refine ⟨?_, ?_, ?_, ?_, rfl, rfl, ?_⟩
  · simp [resourceRancherHostUpdate, hu1, hu2]
  · simp [resourceRancherHostUpdate, hu1, hu2]
  · simp [resourceRancherHostDelete, hd1, hd2]
  · simp [resourceRancherHostDelete, hd1, hd2]
  · cases r <;> rfl

/-- Witness for C8 at concrete oracles whose fetch returns neither record
nor error. -/
theorem claim_C8_witness :
    (resourceRancherHostUpdate ⟨"1", "n", "d", "e", "h", []⟩
      ⟨none, (none, none), none, none, (none, none)⟩).2.1 = some .nilDereference
    ∧ (resourceRancherHostUpdate ⟨"1", "n", "d", "e", "h", []⟩
      ⟨none, (none, none), none, none, (none, none)⟩).1 = ⟨"1", "n", "d", "e", "h", []⟩
    ∧ (resourceRancherHostDelete ⟨"1", "n", "d", "e", "h", []⟩
      ⟨none, (none, none), none, [], none, []⟩).2.1 = some .nilDereference
    ∧ (resourceRancherHostDelete ⟨"1", "n", "d", "e", "h", []⟩
      ⟨none, (none, none), none, [], none, []⟩).1 = ⟨"1", "n", "d", "e", "h", []⟩
    ∧ HostStateRefreshFunc (none, none) = none
    ∧ HostStateRefreshFunc (some ⟨"9", "rn", "rd", "rh", "active", []⟩, none) =
        some ⟨some ⟨"9", "rn", "rd", "rh", "active", []⟩, "active", none⟩
    ∧ HostStateRefreshFunc (none, some "boom") = some ⟨none, "", some "boom"⟩ :=
  claim_C8 ⟨"1", "n", "d", "e", "h", []⟩
    ⟨none, (none, none), none, none, (none, none)⟩
    ⟨none, (none, none), none, [], none, []⟩
    ⟨"9", "rn", "rd", "rh", "active", []⟩ "boom" none rfl rfl rfl rfl

/-- C3 counterexample: the delete operation on a missing remote record (nil
record, nil error) does not clear the stored id and return success: it hits
the embedded nil dereference and leaves the id in place. -/
theorem claim_C3_counterexample :
    (resourceRancherHostDelete ⟨"42", "n", "d", "e", "h", []⟩
        ⟨none, (none, none), none, [], none, []⟩).2.1 = some .nilDereference
    ∧ (resourceRancherHostDelete ⟨"42", "n", "d", "e", "h", []⟩
        ⟨none, (none, none), none, [], none, []⟩).1.id = "42" :=
  ⟨rfl, rfl⟩

/-- C3 amended: for the read operation, a missing remote record or one whose
state is removed is not an error: read clears the stored id and returns
success (update and delete have no such handling). -/
theorem claim_C3 (d : ResourceData) (host : Host)
    (hrem : removed host.state = true) :
    resourceRancherHostRead d none (none, none) = ({ d with id := "" }, none)
    ∧ resourceRancherHostRead d none (some host, none) = ({ d with id := "" }, none) := by
  constructor
  · rfl
  · simp [resourceRancherHostRead, hrem]

/-- Witness for C3 at a removed host. -/
theorem claim_C3_witness :
    resourceRancherHostRead ⟨"1", "n", "d", "e", "h", []⟩ none (none, none) =
      (⟨"", "n", "d", "e", "h", []⟩, none)
    ∧ resourceRancherHostRead ⟨"1", "n", "d", "e", "h", []⟩ none
        (some ⟨"9", "rn", "rd", "rh", "removed", []⟩, none) =
      (⟨"", "n", "d", "e", "h", []⟩, none) :=
  claim_C3 ⟨"1", "n", "d", "e", "h", []⟩ ⟨"9", "rn", "rd", "rh", "removed", []⟩
    (by decide)

/-- C7 counterexample: findHost silently discards the error of the host-list
call: with the client returning an error, the reported observation carries no
error at all. -/
theorem claim_C7_counterexample :
    findHost "web" (some []) (some "connection refused") =
      some ⟨none, "not found", none⟩ :=
  rfl

/-- C7 amended: every remote-client error other than the list error inside
findHost is propagated as-is or wrapped with a short contextual message: the
environment-client, fetch-by-id and update-call errors of read, update and
delete are returned as-is, the deactivate and delete call errors are wrapped,
and the refresh closure passes its fetch error through; findHost alone
ignores its list error. -/
theorem claim_C7 (d : ResourceData) (e : String) (r : Option Host) (host : Host)
    (hn : String) (hs : Option (List Host))
    (o2 : UpdateOracle) (o3 : DeleteOracle)
    (hinact : host.state ≠ "inactive") :
    resourceRancherHostRead d (some e) o2.byId = (d, some (.remote e))
    ∧ resourceRancherHostRead d none (r, some e) = (d, some (.remote e))
    ∧ (resourceRancherHostUpdate d
        ⟨some e, o2.byId, o2.updateErr, o2.readEnvErr, o2.readById⟩).2.1 =
        some (.remote e)
    ∧ (resourceRancherHostUpdate d
        ⟨none, (r, some e), o2.updateErr, o2.readEnvErr, o2.readById⟩).2.1 =
        some (.remote e)
    ∧ (resourceRancherHostUpdate d
        ⟨none, (some host, none), some e, o2.readEnvErr, o2.readById⟩).2.1 =
        some (.remote e)
    ∧ (resourceRancherHostDelete d
        ⟨some e, o3.byId, o3.deactErr, o3.deactByIds, o3.delErr, o3.removeByIds⟩).2.1 =
        some (.remote e)
    ∧ (resourceRancherHostDelete d
        ⟨none, (r, some e), o3.deactErr, o3.deactByIds, o3.delErr, o3.removeByIds⟩).2.1 =
        some (.remote e)
    ∧ (resourceRancherHostDelete d
        ⟨none, (some host, none), some e, o3.deactByIds, o3.delErr, o3.removeByIds⟩).2.1 =
        some (.deactivating e)
    ∧ (resourceRancherHostDelete d
        ⟨none, (some ⟨host.id, host.name, host.description, host.hostname,
          "inactive", host.labels⟩, none), o3.deactErr, o3.deactByIds,
          some e, o3.removeByIds⟩).2.1 = some (.deleting e)
    ∧ HostStateRefreshFunc (r, some e) = some ⟨none, "", some e⟩
    ∧ findHost hn hs (some e) = findHost hn hs none := by
  refine ⟨rfl, ?_, rfl, ?_, ?_, rfl, ?_, ?_, ?_, ?_, rfl⟩
  · cases r <;> rfl
  · cases r <;> rfl
  · simp [resourceRancherHostUpdate]
  · cases r <;> rfl
  · simp [resourceRancherHostDelete, hinact]
  · simp [resourceRancherHostDelete, deleteRest]
  · cases r <;> rfl

/-- Witness for C7 at an active host and a concrete client error. -/
theorem claim_C7_witness :
    resourceRancherHostRead ⟨"1", "n", "d", "e", "h", []⟩ (some "boom")
      (none, none) = (⟨"1", "n", "d", "e", "h", []⟩, some (.remote "boom"))
    ∧ resourceRancherHostRead ⟨"1", "n", "d", "e", "h", []⟩ none
        (none, some "boom") = (⟨"1", "n", "d", "e", "h", []⟩, some (.remote "boom"))
    ∧ (resourceRancherHostUpdate ⟨"1", "n", "d", "e", "h", []⟩
        ⟨some "boom", (none, none), none, none, (none, none)⟩).2.1 =
        some (.remote "boom")
    ∧ (resourceRancherHostUpdate ⟨"1", "n", "d", "e", "h", []⟩
        ⟨none, (none, some "boom"), none, none, (none, none)⟩).2.1 =
        some (.remote "boom")
    ∧ (resourceRancherHostUpdate ⟨"1", "n", "d", "e", "h", []⟩
        ⟨none, (some ⟨"9", "rn", "rd", "rh", "active", []⟩, none), some "boom",
          none, (none, none)⟩).2.1 = some (.remote "boom")
    ∧ (resourceRancherHostDelete ⟨"1", "n", "d", "e", "h", []⟩
        ⟨some "boom", (none, none), none, [], none, []⟩).2.1 =
        some (.remote "boom")
    ∧ (resourceRancherHostDelete ⟨"1", "n", "d", "e", "h", []⟩
        ⟨none, (none, some "boom"), none, [], none, []⟩).2.1 =
        some (.remote "boom")
    ∧ (resourceRancherHostDelete ⟨"1", "n", "d", "e", "h", []⟩
        ⟨none, (some ⟨"9", "rn", "rd", "rh", "active", []⟩, none), some "boom",
          [], none, []⟩).2.1 = some (.deactivating "boom")
    ∧ (resourceRancherHostDelete ⟨"1", "n", "d", "e", "h", []⟩
        ⟨none, (some ⟨"9", "rn", "rd", "rh", "inactive", []⟩, none), none, [],
          some "boom", []⟩).2.1 = some (.deleting "boom")
    ∧ HostStateRefreshFunc (none, some "boom") = some ⟨none, "", some "boom"⟩
    ∧ findHost "h" (some []) (some "boom") = findHost "h" (some []) none :=
  claim_C7 ⟨"1", "n", "d", "e", "h", []⟩ "boom" none
    ⟨"9", "rn", "rd", "rh", "active", []⟩ "h" (some [])
    ⟨none, (none, none), none, none, (none, none)⟩
    ⟨none, (none, none), none, [], none, []⟩ (by decide)

/-- C4: a successful delete of a host not already inactive issues the
deactivate action, sees the deactivation poll succeed on the inactive target
status, issues the delete call, sees the removal poll succeed on the removed
target status, and clears the stored id; for a host already inactive the
deactivate call and its wait are skipped; any failure leaves the local state,
including the stored id, unchanged. -/
theorem claim_C4 (d : ResourceData) (o : DeleteOracle) (host : Host)
    (henv : o.envErr = none) (hby : o.byId = (some host, none)) :
    ((resourceRancherHostDelete d o).2.1 = none → host.state ≠ "inactive" →
      (resourceRancherHostDelete d o).2.2 = [.actionDeactivate d.id, .deleteHost d.id]
      ∧ (∃ h1, waitForState deactivateStateConf
          (o.deactByIds.map HostStateRefreshFunc) 0 = .ok h1)
      ∧ (∃ h2, waitForState removeStateConf
          (o.removeByIds.map HostStateRefreshFunc) 0 = .ok h2)
      ∧ (resourceRancherHostDelete d o).1 = { d with id := "" })
    ∧ ((resourceRancherHostDelete d o).2.1 = none → host.state = "inactive" →
      (resourceRancherHostDelete d o).2.2 = [.deleteHost d.id]
      ∧ (∃ h2, waitForState removeStateConf
          (o.removeByIds.map HostStateRefreshFunc) 0 = .ok h2)
      ∧ (resourceRancherHostDelete d o).1 = { d with id := "" })
    ∧ (∀ e, (resourceRancherHostDelete d o).2.1 = some e →
      (resourceRancherHostDelete d o).1 = d)
    ∧ (∀ h1, waitForState deactivateStateConf
          (o.deactByIds.map HostStateRefreshFunc) 0 = .ok h1 →
      some (Observation.mk (some h1) "inactive" none) ∈
        o.deactByIds.map HostStateRefreshFunc)
    ∧ (∀ h2, waitForState removeStateConf
          (o.removeByIds.map HostStateRefreshFunc) 0 = .ok h2 →
      some (Observation.mk (some h2) "removed" none) ∈
        o.removeByIds.map HostStateRefreshFunc) := by
  have hdel : resourceRancherHostDelete d o =
      (if host.state != "inactive" then
        match o.deactErr with
        | some e => (d, some (.deactivating e), [.actionDeactivate d.id])
        | none =>
          match waitForState deactivateStateConf
              (o.deactByIds.map HostStateRefreshFunc) 0 with
          | .error we => (d, some (.waitRemoved d.id we.message), [.actionDeactivate d.id])
          | .ok _ =>
            let r := deleteRest d d.id o
            (r.1, r.2.1, .actionDeactivate d.id :: r.2.2)
      else deleteRest d d.id o) := by
    simp [resourceRancherHostDelete, henv, hby]
  refine ⟨?_, ?_, ?_, ?_, ?_⟩
  · intro hsucc hst
    rw [hdel] at hsucc ⊢
    rw [if_pos (by simpa using hst)] at hsucc ⊢
    cases hde : o.deactErr with
    | some e =>
      rw [hde] at hsucc
      exact Option.noConfusion hsucc
    | none =>
      rw [hde] at hsucc
      cases hw : waitForState deactivateStateConf
          (o.deactByIds.map HostStateRefreshFunc) 0 with
      | error we =>
        rw [hw] at hsucc
        exact Option.noConfusion hsucc
      | ok h1 =>
        rw [hw] at hsucc
        have hsucc1 : (deleteRest d d.id o).2.1 = none := hsucc
        obtain ⟨hde2, ⟨h2, hw2⟩, hst1, htr⟩ := deleteRest_success d d.id o hsucc1
        refine ⟨?_, ⟨h1, by simp [hw]⟩, ⟨h2, hw2⟩, ?_⟩
        · show RemoteCall.actionDeactivate d.id :: (deleteRest d d.id o).2.2 = _
          rw [htr]
        · show (deleteRest d d.id o).1 = _
          exact hst1
  · intro hsucc hst
    rw [hdel] at hsucc ⊢
    rw [if_neg (by simp [hst])] at hsucc ⊢
    obtain ⟨hde2, hh2, hst1, htr⟩ := deleteRest_success d d.id o hsucc
    exact ⟨htr, hh2, hst1⟩
  · intro e herr
    rw [hdel] at herr ⊢
    by_cases hst : host.state = "inactive"
    · rw [if_neg (by simp [hst])] at herr ⊢
      exact deleteRest_error d d.id o e herr
    · rw [if_pos (by simpa using hst)] at herr ⊢
      cases hde : o.deactErr with
      | some e0 => rfl
      | none =>
        rw [hde] at herr
        cases hw : waitForState deactivateStateConf
            (o.deactByIds.map HostStateRefreshFunc) 0 with
        | error we => rfl
        | ok h1 =>
          rw [hw] at herr
          have herr1 : (deleteRest d d.id o).2.1 = some e := herr
          show (deleteRest d d.id o).1 = d
          exact deleteRest_error d d.id o e herr1
  · intro h1 hw
    obtain ⟨s, hs, hmem⟩ := waitForState_ok_target deactivateStateConf _ _ _ hw
    have : s = "inactive" := by
      simpa [deactivateStateConf] using hs
    exact this ▸ hmem
  · intro h2 hw
    obtain ⟨s, hs, hmem⟩ := waitForState_ok_target removeStateConf _ _ _ hw
    have : s = "removed" := by
      simpa [removeStateConf] using hs
    exact this ▸ hmem

/-- Witness for C4: a full successful delete of an active host issues the
deactivate action, then the delete call, sees both polls succeed and clears
the stored id. -/
theorem claim_C4_witness :
    (resourceRancherHostDelete ⟨"1", "n", "d", "e", "h", []⟩
      ⟨none, (some ⟨"1", "rn", "rd", "rh", "active", []⟩, none), none,
        [(some ⟨"1", "rn", "rd", "rh", "inactive", []⟩, none)], none,
        [(some ⟨"1", "rn", "rd", "rh", "removed", []⟩, none)]⟩).2.2 =
      [.actionDeactivate "1", .deleteHost "1"]
    ∧ (∃ h1, waitForState deactivateStateConf
        ([((some ⟨"1", "rn", "rd", "rh", "inactive", []⟩ : Option Host), (none : Option String))].map
          HostStateRefreshFunc) 0 = .ok h1)
    ∧ (∃ h2, waitForState removeStateConf
        ([((some ⟨"1", "rn", "rd", "rh", "removed", []⟩ : Option Host), (none : Option String))].map
          HostStateRefreshFunc) 0 = .ok h2)
    ∧ (resourceRancherHostDelete ⟨"1", "n", "d", "e", "h", []⟩
      ⟨none, (some ⟨"1", "rn", "rd", "rh", "active", []⟩, none), none,
        [(some ⟨"1", "rn", "rd", "rh", "inactive", []⟩, none)], none,
        [(some ⟨"1", "rn", "rd", "rh", "removed", []⟩, none)]⟩).1 =
      ⟨"", "n", "d", "e", "h", []⟩ :=
  (claim_C4 ⟨"1", "n", "d", "e", "h", []⟩
    ⟨none, (some ⟨"1", "rn", "rd", "rh", "active", []⟩, none), none,
      [(some ⟨"1", "rn", "rd", "rh", "inactive", []⟩, none)], none,
      [(some ⟨"1", "rn", "rd", "rh", "removed", []⟩, none)]⟩
    ⟨"1", "rn", "rd", "rh", "active", []⟩ rfl rfl).1 (by decide) (by decide)

/-- C5: an observation in which no listed host has the requested hostname is
reported as the pending pseudo-status not found with no error; that status is
in the pending set of the create poll, whose not-found allowance is 50: up to
50 consecutive not-found observations merely advance the poll, and a run of
51 aborts it. -/
theorem claim_C5 (hostname : String) (hs : List Host) (le : Option String)
    (rest : List (Option Observation)) (n : Nat)
    (hnone : ∀ h ∈ hs, h.hostname ≠ hostname) (hn : n ≤ 50) :
    findHost hostname (some hs) le = some ⟨none, "not found", none⟩
    ∧ hostStateConf.pending.contains "not found" = true
    ∧ hostStateConf.notFoundChecks = 50
    ∧ waitForState hostStateConf
        (List.replicate n (some ⟨none, "not found", none⟩) ++ rest) 0 =
        waitForState hostStateConf rest n
    ∧ waitForState hostStateConf
        (List.replicate 51 (some ⟨none, "not found", none⟩) ++ rest) 0 =
        Except.error .notFoundLimit := by
  have h50 : hostStateConf.notFoundChecks = 50 := rfl
  refine ⟨?_, rfl, rfl, ?_, ?_⟩
  · have hfind : hs.find? (fun h => h.hostname == hostname) = none :=
      List.find?_eq_none.mpr (fun h hh => by simpa using hnone h hh)
    simp [findHost, hfind]
  · rw [waitForState_notFounds hostStateConf "not found" rest n 0
        (by rw [h50]; omega), if_neg (by rw [h50]; omega), Nat.zero_add]
  · rw [waitForState_notFounds hostStateConf "not found" rest 51 0
        (by rw [h50]; omega), if_pos (by rw [h50]; omega)]

/-- Witness for C5: a listing without the wanted hostname, and concrete runs
of 50 and 51 not-found observations against an otherwise empty stream. -/
theorem claim_C5_witness :
    findHost "web" (some [⟨"9", "rn", "rd", "other", "active", []⟩]) none =
      some ⟨none, "not found", none⟩
    ∧ hostStateConf.pending.contains "not found" = true
    ∧ hostStateConf.notFoundChecks = 50
    ∧ waitForState hostStateConf
        (List.replicate 50 (some ⟨none, "not found", none⟩) ++ []) 0 =
        waitForState hostStateConf [] 50
    ∧ waitForState hostStateConf
        (List.replicate 51 (some ⟨none, "not found", none⟩) ++ []) 0 =
        Except.error .notFoundLimit :=
  claim_C5 "web" [⟨"9", "rn", "rd", "other", "active", []⟩] none [] 50
    (by decide) (by omega)

/-- C6: an observed status in the target set ends any poll successfully with
that host; the create target set is active and disconnected and the hard
timeout is 10 minutes; a create poll whose observations all stay pending
without reaching the target ends in the timeout failure, which create wraps
in a message naming the host and the find wait; the delete tail wraps a
removal-poll failure in a message naming the host and the removal wait. -/
theorem claim_C6 (conf : StateChangeConf) (h : Host) (s : String)
    (tail : List (Option Observation)) (nf : Nat)
    (d : ResourceData) (o : CreateOracle) (od : DeleteOracle) (id2 : String)
    (we : WaitError)
    (htgt : conf.target.contains s = true)
    (henv : o.envErr = none)
    (hpend : ∀ ob ∈ o.lists.map (fun lr => findHost d.hostname lr.1 lr.2),
        ∃ h0 s0, ob = some (Observation.mk (some h0) s0 none) ∧
          hostStateConf.target.contains s0 = false ∧
          hostStateConf.pending.contains s0 = true)
    (hde : od.delErr = none)
    (hwe : waitForState removeStateConf (od.removeByIds.map HostStateRefreshFunc) 0 =
        .error we) :
    waitForState conf (some ⟨some h, s, none⟩ :: tail) nf = .ok h
    ∧ hostStateConf.target = ["active", "disconnected"]
    ∧ hostStateConf.timeout = 10 * 60
    ∧ (resourceRancherHostCreate d o).2.1 =
        some (.waitFound d.hostname WaitError.timeout.message)
    ∧ (∃ pre post, (HostError.waitFound d.hostname WaitError.timeout.message).message =
        pre ++ d.hostname ++ post)
    ∧ (deleteRest d id2 od).2.1 = some (.waitRemoved id2 we.message)
    ∧ (∃ pre post, (HostError.waitRemoved id2 we.message).message =
        pre ++ id2 ++ post) := by
  refine ⟨?_, rfl, rfl, ?_, ?_, ?_, ?_⟩
  · rw [waitForState_cons_found, if_pos htgt]
  · have ht : waitForState hostStateConf
        (o.lists.map (fun lr => findHost d.hostname lr.1 lr.2)) 0 =
        .error .timeout :=
      waitForState_pending_timeout hostStateConf _ 0 hpend
    simp [resourceRancherHostCreate, henv, ht]
  · exact ⟨"Error waiting for host (",
      ") to be found: " ++ WaitError.timeout.message,
      by simp [HostError.message, string_append_assoc]⟩
  · simp [deleteRest, hde, hwe]
  · exact ⟨"Error waiting for host (",
      ") to be removed: " ++ we.message,
      by simp [HostError.message, string_append_assoc]⟩

/-- Witness for C6: an immediately active host ends the create poll, an empty
observation stream times out and is wrapped naming the hostname, and a timed
out removal poll is wrapped naming the id. -/
theorem claim_C6_witness :
    waitForState hostStateConf
      (some ⟨some ⟨"9", "rn", "rd", "web", "active", []⟩, "active", none⟩ :: []) 0 =
      .ok ⟨"9", "rn", "rd", "web", "active", []⟩
    ∧ hostStateConf.target = ["active", "disconnected"]
    ∧ hostStateConf.timeout = 10 * 60
    ∧ (resourceRancherHostCreate ⟨"", "n", "d", "e", "web", []⟩
        ⟨none, [], ⟨none, (none, none), none, none, (none, none)⟩⟩).2.1 =
        some (.waitFound "web" WaitError.timeout.message)
    ∧ (∃ pre post, (HostError.waitFound "web" WaitError.timeout.message).message =
        pre ++ "web" ++ post)
    ∧ (deleteRest ⟨"", "n", "d", "e", "web", []⟩ "77"
        ⟨none, (none, none), none, [], none, []⟩).2.1 =
        some (.waitRemoved "77" WaitError.timeout.message)
    ∧ (∃ pre post, (HostError.waitRemoved "77" WaitError.timeout.message).message =
        pre ++ "77" ++ post) :=
  claim_C6 hostStateConf ⟨"9", "rn", "rd", "web", "active", []⟩ "active" [] 0
    ⟨"", "n", "d", "e", "web", []⟩
    ⟨none, [], ⟨none, (none, none), none, none, (none, none)⟩⟩
    ⟨none, (none, none), none, [], none, []⟩ "77" WaitError.timeout
    (by decide) rfl (by simp) rfl rfl

end RancherHost
